/-
  Verification development for the `jpgextract` command
  (github.com/jeremytorres/jpegextract).

  The Go sources (`jpgextract.go` plus its helper/test files) are shallowly
  embedded below:
  * string-handling from the Go standard library (`strings.TrimSpace`,
    `strings.ToUpper`, `strings.Split`, `strings.HasSuffix`) is modelled over
    `List Char` / `String`;
  * `processCli` is a pure function from the parsed flag values and an
    environment (directory-validity oracle, `convert`-in-PATH oracle) to
    either exit code 1 or a validated configuration;
  * file discovery (`getFilesForExt` = `filepath.Glob`) is a parameter
    `String → Except GlobErr (List String)`; `doProcess` discards the error
    component exactly as the source line `files, _ := getFilesForExt(...)`;
  * the decode-task body (`processFilesConcurrent`) and the detached rotation
    goroutine are pure functions from the decode/rotation outcome to the list
    of performed actions; the Go `float64` orientation is modelled as `ℚ`;
  * the scheduler loop of `doProcess` is a small-step transition system
    (`Step`) whose environment steps are task completions, with an unbuffered
    completion channel modelled by rendezvous (a drain consumes one finished,
    not-yet-received task).
-/
import Mathlib

namespace Jpgextract

/-! ### Go standard-library string helpers (modelled) -/

/-- Splits a character list at every occurrence of `sep`, keeping empty
segments; models Go `strings.Split` with a one-character separator. -/
def splitOnChar (sep : Char) : List Char → List (List Char)
  | [] => [[]]
  | c :: rest =>
    let r := splitOnChar sep rest
    if c = sep then [] :: r
    else
      match r with
      | [] => [[c]]
      | h :: t => (c :: h) :: t

/-- Models Go `strings.TrimSpace`: drop whitespace from both ends. -/
def goTrimSpace (s : String) : String :=
  ⟨(((s.data.dropWhile Char.isWhitespace).reverse.dropWhile Char.isWhitespace).reverse)⟩

/-- Models Go `strings.ToUpper` (the extensions handled here are ASCII). -/
def goToUpper (s : String) : String :=
  ⟨s.data.map Char.toUpper⟩

/-- Models Go `strings.HasSuffix`. -/
def goHasSuffix (s suffix : String) : Bool :=
  suffix.data.isSuffixOf s.data

/-- Models Go `strings.Split(s, ",")`. -/
def goSplitComma (s : String) : List String :=
  (splitOnChar ',' s.data).map String.mk

/-! ### Constants and flag values (`jpgextract.go`) -/

/-- Constant `ImageMagicConvertBin`: the name of ImageMagick's `convert` utility. -/
def ImageMagicConvertBin : String := "convert"

/-- Slice `validParserKeys`: the RAW parsers registered by `initParsers`
(`rawparser.NefParserKey = "NEF"`, `rawparser.Cr2ParserKey = "CR2"`; the
flag help text in the source lists the supported types as `[NEF | CR2]`). -/
def validParserKeys : List String := ["NEF", "CR2"]

/-- Function `isRawFileExtValid`: linear scan of `validParserKeys`. -/
def isRawFileExtValid (ext : String) : Bool :=
  validParserKeys.any (fun validExt => ext = validExt)

/-- The flag values delivered by the `cli` package to the `app.Action`
closure (`c.String`, `c.Int`, `c.Bool` results). -/
structure CliArgs where
  raws : String
  srcDirsArg : String
  destDirArg : String
  numRoutines : Int
  quality : Int
  rotate : Bool
  deriving DecidableEq

/-- The package-level mutable configuration after a successful
`processCli` run (`rawFileExts`, `srcDirs`, `destDir`, `numOfRoutines`,
`quality`, `rotate`). -/
structure Config where
  rawFileExts : List String
  srcDirs : List String
  destDir : String
  numOfRoutines : Int
  quality : Int
  rotate : Bool
  deriving DecidableEq

/-- The per-extension normalisation in `processCli`:
`rawFileExts[i] = strings.ToUpper(strings.TrimSpace(ext))`. -/
def parsedRawExts (rawExts : String) : List String :=
  (goSplitComma rawExts).map (fun ext => goToUpper (goTrimSpace ext))

/-- The per-directory normalisation in `processCli`: trim, then append `"/"`
when the (untrimmed) element `dir` does not already end in `"/"` — the
source checks `strings.HasSuffix(dir, "/")` on the pre-trim element. -/
def normalizedSrcDirs (srcDir : String) : List String :=
  (goSplitComma srcDir).map (fun dir =>
    let t := goTrimSpace dir
    if goHasSuffix dir "/" then t else t ++ "/")

/-- Function `processCli` (`jpgextract.go:140-220`): validates the flag values and
either exits with code 1 (`os.Exit(1)` via `ShowAppHelp`+exit, `log.Fatal`,
or `exitWithErr`) or installs the configuration.  `dirValid` models
`validateUserDir`; `convertInPath` models
`isImagicConvertInPath(ImageMagicConvertBin)`. -/
def processCli (args : CliArgs) (dirValid : String → Bool) (convertInPath : Bool) :
    Except Nat Config :=
  if goTrimSpace args.raws = "" ∨ goTrimSpace args.srcDirsArg = "" ∨
      goTrimSpace args.destDirArg = "" then .error 1
  else if args.rotate ∧ ¬ convertInPath then .error 1
  else if (parsedRawExts (goTrimSpace args.raws)).any
      (fun ext => ¬ isRawFileExtValid ext) then .error 1
  else if (normalizedSrcDirs (goTrimSpace args.srcDirsArg)).any
      (fun d => ¬ dirValid d) then .error 1
  else if ¬ dirValid (goTrimSpace args.destDirArg) then .error 1
  else
    .ok { rawFileExts := parsedRawExts (goTrimSpace args.raws),
          srcDirs := normalizedSrcDirs (goTrimSpace args.srcDirsArg),
          destDir :=
            if goHasSuffix (goTrimSpace args.destDirArg) "/" then
              goTrimSpace args.destDirArg
            else goTrimSpace args.destDirArg ++ "/",
          numOfRoutines := args.numRoutines, quality := args.quality,
          rotate := args.rotate }

/-! ### File discovery (`getFilesForExt` = `filepath.Glob`) -/

/-- The only error `filepath.Glob` returns (`ErrBadPattern`). -/
inductive GlobErr where
  | badPattern
  deriving DecidableEq

/-- The glob pattern built in `doProcess`: `dir + "*." + rawType`. -/
def globPattern (dir rawType : String) : String :=
  dir ++ "*." ++ rawType

/-- The file list `doProcess` works with: `files, _ := getFilesForExt(p)`
discards the error, and on error `filepath.Glob` returns a nil slice, so an
erroring pattern yields the empty list. -/
def filesOf (getFilesForExt : String → Except GlobErr (List String)) (p : String) :
    List String :=
  match getFilesForExt p with
  | .ok files => files
  | .error _ => []

/-- Models `path.Match` of the pattern `"*." ++ ext` against a basename
(no separator in the name): `*` matches any run of non-separator
characters, so the name matches exactly when it ends with `"." ++ ext`,
case-sensitively. -/
def matchesExtGlob (ext name : String) : Bool :=
  ("." ++ ext).data.isSuffixOf name.data

/-- Models `filepath.Glob (dir ++ "*." ++ ext)` over a filesystem given as
the list of basenames present in each directory. -/
def globFs (fs : String → List String) (dir ext : String) : List String :=
  (fs dir).filter (fun name => matchesExtGlob ext name)

/-! ### `doProcess` as a pure function (totals and spawn order)

The scheduler's bookkeeping (`total`, and which files are handed to
`processFilesConcurrent`, in order) is deterministic and independent of the
concurrent completions; `doProcessCore` computes exactly that part of
`doProcess` (`jpgextract.go:231-276`). -/

/-- Pure part of `doProcess`: for each source dir and each raw type, glob,
and when `fileCnt > 0` spawn every file (second component, in admission
order) and add `fileCnt` to `total` (first component). -/
def doProcessCore (files : String → List String) (srcDirs rawFileExts : List String) :
    Nat × List String :=
  srcDirs.foldl (fun acc dir =>
    rawFileExts.foldl (fun acc rawType =>
      let fs := files (globPattern dir rawType)
      let fileCnt := fs.length
      if 0 < fileCnt then (acc.1 + fileCnt, acc.2 ++ fs) else acc) acc) (0, [])

/-- The per-(directory × extension) discovered-file counts, in the pass
order of `doProcess`'s nested loops. -/
def discoveredCounts (files : String → List String) (srcDirs rawFileExts : List String) :
    List Nat :=
  srcDirs.flatMap (fun dir =>
    rawFileExts.map (fun rawType => (files (globPattern dir rawType)).length))

/-! ### The decode task (`processFilesConcurrent`, `jpgextract.go:100-127`) -/

/-- Fields of `rawparser.RawFile` used by the task: the extracted JPEG's path
and its EXIF orientation (Go `float64`, radians clockwise; modelled as `ℚ`). -/
structure ExtractionResult where
  jpegPath : String
  jpegOrientation : ℚ
  deriving DecidableEq

/-- Outcome of `rp.parser.ProcessFile`: either an error (with its message)
or a parsed raw file. -/
inductive DecodeOutcome where
  | failure (msg : String)
  | success (rawfile : ExtractionResult)
  deriving DecidableEq

/-- The observable actions of the decode-task goroutine body. -/
inductive TaskAction where
  | logError (msg : String)
  | spawnRotation (fileName : String) (radiansCw : ℚ)
  | signalCompletion
  deriving DecidableEq

/-- The body of the goroutine spawned by `processFilesConcurrent`, as the
sequence of its observable actions: on decode error log; on success spawn
the detached rotation goroutine when `rotate` is set and the orientation is
nonzero; in every case finish by sending exactly one completion signal
(`c <- true`). -/
def processFilesConcurrent (rotate : Bool) (outcome : DecodeOutcome) : List TaskAction :=
  match outcome with
  | .failure msg => [.logError msg] ++ [.signalCompletion]
  | .success rawfile =>
    (if rotate = true ∧ rawfile.jpegOrientation ≠ 0 then
      [.spawnRotation rawfile.jpegPath rawfile.jpegOrientation]
    else []) ++ [.signalCompletion]

/-! ### The detached rotation goroutine (`jpgextract.go:109-121`) -/

/-- The exact value of the Go `float64` constant `math.Pi`
(`884279719003555 / 2^48`). -/
def pi64 : ℚ := 884279719003555 / 281474976710656

/-- Round to the nearest integer, ties to even; the rounding
`strconv.FormatFloat` applies to the decimal digits. -/
def roundHalfEven (x : ℚ) : Int :=
  let f := ⌊x⌋
  let r := x - f
  if r < 1/2 then f
  else if 1/2 < r then f + 1
  else if f % 2 = 0 then f else f + 1

/-- Models `strconv.FormatFloat(q, 'f', 2, 64)` at exact-rational level:
sign, integer part, `'.'`, and exactly two fractional digits, the value
rounded to the nearest hundredth. -/
def formatFloat2 (q : ℚ) : String :=
  (if q < 0 then "-" else "") ++
    toString ((roundHalfEven (|q| * 100)).toNat / 100) ++ "." ++
    String.mk [Nat.digitChar ((roundHalfEven (|q| * 100)).toNat % 100 / 10),
               Nat.digitChar ((roundHalfEven (|q| * 100)).toNat % 10)]

/-- The degree value computed by the rotation goroutine:
`degrees := radiansCw * (180 / math.Pi)`. -/
def degreesOf (radiansCw : ℚ) : ℚ :=
  radiansCw * (180 / pi64)

/-- The argument vector of
`exec.Command(ImageMagicConvertBin, "-rotate", strconv.FormatFloat(degrees, 'f', 2, 64), fileName, fileName)`. -/
def rotationCommand (fileName : String) (radiansCw : ℚ) : List String :=
  [ImageMagicConvertBin, "-rotate", formatFloat2 (degreesOf radiansCw), fileName, fileName]

/-- Environment outcome of running the rotation subprocess. -/
inductive RotationEvent where
  | launchFailure (msg : String)
  | nonzeroExit (msg : String)
  | cleanExit
  deriving DecidableEq

/-- How the rotation goroutine ends: `log.Fatal` terminates the whole
process with exit code 1; a `cmd.Wait` error is only logged. -/
inductive RotOutcome where
  | processAborted (exitCode : Nat)
  | loggedAndContinued
  | completed
  deriving DecidableEq

/-- What a run of the rotation goroutine did: the command it invoked and
how it ended. -/
structure RotationRun where
  cmd : List String
  outcome : RotOutcome
  deriving DecidableEq

/-- The detached rotation goroutine: builds the `convert` command; if
`cmd.Start()` fails it calls `log.Fatal(err)` (process exits with code 1);
if `cmd.Wait()` reports a nonzero exit it logs and continues. -/
def rotationGoroutine (fileName : String) (radiansCw : ℚ) (ev : RotationEvent) :
    RotationRun :=
  { cmd := rotationCommand fileName radiansCw,
    outcome :=
      match ev with
      | .launchFailure _ => .processAborted 1
      | .nonzeroExit _ => .loggedAndContinued
      | .cleanExit => .completed }

/-! ### Whole-run result (`main` / `setup`) -/

/-- Result of a run: either the process exited early with an exit code
(having scheduled `scheduled` decode tasks), or `doProcess` completed and
returned a total. -/
inductive RunResult where
  | exited (code : Nat) (scheduled : Nat)
  | completed (total : Nat)
  deriving DecidableEq

/-- Whole run `main`: `setup` (i.e. `processCli`) then `doProcess`.  A validation
failure exits before any discovery or scheduling, so zero tasks are
scheduled. -/
def runMain (args : CliArgs) (dirValid : String → Bool) (convertInPath : Bool)
    (getFilesForExt : String → Except GlobErr (List String)) : RunResult :=
  match processCli args dirValid convertInPath with
  | .error code => .exited code 0
  | .ok cfg =>
    .completed (doProcessCore (filesOf getFilesForExt) cfg.srcDirs cfg.rawFileExts).1

/-! ### The scheduler loop of `doProcess` as a transition system

`doProcess` (`jpgextract.go:231-276`) iterates over (directory × extension)
passes; in each pass with `fileCnt > 0` it admits the files one by one,
draining exactly one completion signal (`drainCnt = 1`) from the unbuffered
channel `done` whenever `routinesActive == numOfRoutines`, and adds
`fileCnt` to `total` after the pass; at the very end it closes `done` and
returns `total` without waiting for outstanding tasks.

The state records the scheduler control position (`passes` still to start,
`cur = some (admitted, fileCnt)` for the in-progress pass) and counters for
the spawned goroutines: `running` (decode in progress), `finished` (decode
done, completion signal not yet received — on the unbuffered channel the
sender blocks until the scheduler's receive), `received` (signals drained).
Environment steps (`taskFinish`, with the decode success flag, and
`lateSignal`, a send attempted after `close(done)`) interleave freely with
scheduler steps. -/

/-- Scheduler/task state of a `doProcess` run. -/
structure SchedState where
  passes : List Nat
  cur : Option (Nat × Nat)
  routinesActive : Int
  spawned : Nat
  running : Nat
  finished : Nat
  received : Nat
  total : Nat
  closed : Bool
  panicked : Bool
  deriving DecidableEq

/-- Initial state of `doProcess` for the given per-pass file counts. -/
def mkInit (passes : List Nat) : SchedState :=
  { passes := passes, cur := none, routinesActive := 0, spawned := 0, running := 0,
    finished := 0, received := 0, total := 0, closed := false, panicked := false }

/-- One step of the `doProcess` run, `N` being `numOfRoutines`. -/
inductive Step (N : Int) : SchedState → SchedState → Prop
  /-- Enter a pass with `fileCnt > 0`: the `if fileCnt > 0` block declares
  `routinesActive := 0`. -/
  | startPass (s : SchedState) (f : Nat) (rest : List Nat) :
      s.closed = false → s.cur = none → s.passes = f :: rest → 0 < f →
      Step N s { s with passes := rest, cur := some (0, f), routinesActive := 0 }
  /-- A pass with `fileCnt = 0` is skipped entirely. -/
  | skipPass (s : SchedState) (rest : List Nat) :
      s.closed = false → s.cur = none → s.passes = 0 :: rest →
      Step N s { s with passes := rest }
  /-- Admission with `routinesActive ≠ numOfRoutines`: spawn directly. -/
  | admitNoDrain (s : SchedState) (a f : Nat) :
      s.closed = false → s.cur = some (a, f) → a < f → s.routinesActive ≠ N →
      Step N s { s with cur := some (a + 1, f),
                        routinesActive := s.routinesActive + 1,
                        spawned := s.spawned + 1, running := s.running + 1 }
  /-- Admission with `routinesActive == numOfRoutines`: drain exactly one
  completion signal (`drainCnt = 1`), which requires a task to have
  finished (the scheduler blocks on `<-done` otherwise), then spawn. -/
  | admitDrain (s : SchedState) (a f : Nat) :
      s.closed = false → s.cur = some (a, f) → a < f → s.routinesActive = N →
      1 ≤ s.finished →
      Step N s { s with cur := some (a + 1, f),
                        routinesActive := s.routinesActive - 1 + 1,
                        finished := s.finished - 1, received := s.received + 1,
                        spawned := s.spawned + 1, running := s.running + 1 }
  /-- End of a pass: `total += fileCnt`; no draining of still-active tasks. -/
  | endPass (s : SchedState) (f : Nat) :
      s.closed = false → s.cur = some (f, f) →
      Step N s { s with cur := none, total := s.total + f }
  /-- All passes done: `close(done)`; `doProcess` returns `total` without
  waiting for outstanding tasks. -/
  | closeChan (s : SchedState) :
      s.closed = false → s.cur = none → s.passes = [] →
      Step N s { s with closed := true }
  /-- Environment: a running decode task finishes (successfully or not —
  `ok` records which; the counters do not depend on it) and moves to
  waiting on its blocked `c <- true`. -/
  | taskFinish (s : SchedState) (ok : Bool) :
      1 ≤ s.running →
      Step N s { s with running := s.running - 1, finished := s.finished + 1 }
  /-- Environment: a finished task attempts its send after `close(done)` —
  a send on a closed channel panics. -/
  | lateSignal (s : SchedState) :
      s.closed = true → 1 ≤ s.finished →
      Step N s { s with panicked := true }

/-- Reachability from an initial state under interleaved scheduler and
environment steps. -/
def Reachable (N : Int) (s0 s : SchedState) : Prop :=
  Relation.ReflTransGen (Step N) s0 s

/-! ### Invariants of the scheduler -/

/-- Admissions still to perform in the in-progress pass. -/
def curAdmitsLeft : Option (Nat × Nat) → Nat
  | some (a, f) => f - a
  | none => 0

/-- Contribution of the in-progress pass to the final total. -/
def curTotal : Option (Nat × Nat) → Nat
  | some (_, f) => f
  | none => 0

/-- Number of drains performed by a pass budgeted at `n` after `j`
admissions: the drain fires at admissions `n, n+1, …`, so `j - min j n`. -/
def passDrains (n j : Nat) : Nat := j - min j n

/-- Drains still to perform in the in-progress pass. -/
def curDrainsLeft (n : Nat) : Option (Nat × Nat) → Nat
  | some (a, f) => passDrains n f - passDrains n a
  | none => 0

/-- Admissions still to perform in the whole run. -/
def remainingAdmits (s : SchedState) : Nat :=
  s.passes.sum + curAdmitsLeft s.cur

/-- Total still to accumulate in the whole run. -/
def remainingTotal (s : SchedState) : Nat :=
  s.passes.sum + curTotal s.cur

/-- Drains still to perform in the whole run (budget `n ≥ 1`). -/
def futureDrains (n : Nat) (s : SchedState) : Nat :=
  (s.passes.map (passDrains n)).sum + curDrainsLeft n s.cur

/-- Relation between `routinesActive` and the admission position of the
in-progress pass (budget `N ≥ 1`): `routinesActive` is pass-local and equals
`min admitted N`; between passes it keeps its last value, bounded by `N`. -/
def curOk (N rA : Int) : Option (Nat × Nat) → Prop
  | some (a, f) => a ≤ f ∧ rA = min (a : Int) N
  | none => 0 ≤ rA ∧ rA ≤ N

/-- The inductive invariant of a `doProcess` run with budget `N ≥ 1`,
relative to the run constants `T` (total files over all passes) and `D`
(total drains over all passes). -/
def Inv (N : Int) (D T : Nat) (s : SchedState) : Prop :=
  (s.closed = true → s.passes = [] ∧ s.cur = none) ∧
  s.spawned = s.running + s.finished + s.received ∧
  s.spawned + remainingAdmits s = T ∧
  s.total + remainingTotal s = T ∧
  curOk N s.routinesActive s.cur ∧
  s.received + futureDrains N.toNat s = D

theorem inv_mkInit (N : Int) (hN : 1 ≤ N) (passes : List Nat) :
    Inv N ((passes.map (passDrains N.toNat)).sum) passes.sum (mkInit passes) := by
  refine ⟨?_, ?_, ?_, ?_, ?_, ?_⟩ <;>
    simp [mkInit, Inv, remainingAdmits, remainingTotal, futureDrains,
      curAdmitsLeft, curTotal, curDrainsLeft, curOk]
  omega

set_option maxHeartbeats 2000000 in
theorem inv_preserved {N : Int} {D T : Nat} (hN : 1 ≤ N) {s t : SchedState}
    (hI : Inv N D T s) (hst : Step N s t) : Inv N D T t := by
  obtain ⟨hc, hsp, hadm, htot, hcur, hdr⟩ := hI
  cases hst with
  | startPass f rest hcl hnone hp hf =>
      rw [hnone] at hcur
      refine ⟨?_, ?_, ?_, ?_, ?_, ?_⟩ <;>
        simp_all [remainingAdmits, remainingTotal, futureDrains, curAdmitsLeft,
          curTotal, curDrainsLeft, passDrains, curOk] <;>
        omega
  | skipPass rest hcl hnone hp =>
      rw [hnone] at hcur
      refine ⟨?_, ?_, ?_, ?_, ?_, ?_⟩ <;>
        simp_all [remainingAdmits, remainingTotal, futureDrains, curAdmitsLeft,
          curTotal, curDrainsLeft, passDrains, curOk] <;>
        omega
  | admitNoDrain a f hcl hcura haf hne =>
      rw [hcura] at hcur
      refine ⟨?_, ?_, ?_, ?_, ?_, ?_⟩ <;>
        simp_all [remainingAdmits, remainingTotal, futureDrains, curAdmitsLeft,
          curTotal, curDrainsLeft, passDrains, curOk] <;>
        omega
  | admitDrain a f hcl hcura haf heq hfin =>
      rw [hcura] at hcur
      refine ⟨?_, ?_, ?_, ?_, ?_, ?_⟩ <;>
        simp_all [remainingAdmits, remainingTotal, futureDrains, curAdmitsLeft,
          curTotal, curDrainsLeft, passDrains, curOk] <;>
        omega
  | endPass f hcl hcura =>
      rw [hcura] at hcur
      refine ⟨?_, ?_, ?_, ?_, ?_, ?_⟩ <;>
        simp_all [remainingAdmits, remainingTotal, futureDrains, curAdmitsLeft,
          curTotal, curDrainsLeft, passDrains, curOk] <;>
        omega
  | closeChan hcl hnone hp =>
      rw [hnone] at hcur
      refine ⟨?_, ?_, ?_, ?_, ?_, ?_⟩ <;>
        simp_all [remainingAdmits, remainingTotal, futureDrains, curAdmitsLeft,
          curTotal, curDrainsLeft, passDrains, curOk] <;>
        omega
  | taskFinish ok hrun =>
      refine ⟨?_, ?_, ?_, ?_, ?_, ?_⟩ <;>
        simp_all [remainingAdmits, remainingTotal, futureDrains, curAdmitsLeft,
          curTotal, curDrainsLeft, passDrains, curOk] <;>
        omega
  | lateSignal hcl hfin =>
      refine ⟨?_, ?_, ?_, ?_, ?_, ?_⟩ <;>
        simp_all [remainingAdmits, remainingTotal, futureDrains, curAdmitsLeft,
          curTotal, curDrainsLeft, passDrains, curOk] <;>
        omega

theorem inv_reachable {N : Int} (hN : 1 ≤ N) {passes : List Nat} {s : SchedState}
    (h : Reachable N (mkInit passes) s) :
    Inv N ((passes.map (passDrains N.toNat)).sum) passes.sum s := by
  induction h with
  | refl => exact inv_mkInit N hN passes
  | tail _ hstep ih => exact inv_preserved hN ih hstep

/-- Pointwise `f = (f - min f n) + min f n` summed over a list. -/
theorem min_add_drains_sum (n : Nat) (l : List Nat) :
    (l.map (fun f => min f n)).sum + (l.map (passDrains n)).sum = l.sum := by
  induction l with
  | nil => simp
  | cons f rest ih =>
    simp only [List.map_cons, List.sum_cons, passDrains]
    omega

/-- In every reachable state of a run with budget `N ≥ 1`, the scheduler's
`routinesActive` counter is at most `N`. -/
theorem routinesActive_le {N : Int} (hN : 1 ≤ N) {passes : List Nat} {s : SchedState}
    (h : Reachable N (mkInit passes) s) : s.routinesActive ≤ N := by
  have hI := inv_reachable hN h
  obtain ⟨-, -, -, -, hcur, -⟩ := hI
  cases hc : s.cur with
  | none => rw [hc] at hcur; exact hcur.2
  | some af =>
    obtain ⟨a, f⟩ := af
    rw [hc] at hcur
    obtain ⟨-, h2⟩ := hcur
    rw [h2]
    omega

/-- When the run closes its completion channel, the number of spawned tasks
whose completion signal was never received is exactly
`Σ min(fileCnt_p, N)` over the passes. -/
theorem outstanding_at_close {N : Int} (hN : 1 ≤ N) {passes : List Nat} {s : SchedState}
    (h : Reachable N (mkInit passes) s) (hclosed : s.closed = true) :
    s.running + s.finished = (passes.map (fun f => min f N.toNat)).sum := by
  have hI := inv_reachable hN h
  obtain ⟨hc, hsp, hadm, -, -, hdr⟩ := hI
  obtain ⟨hp, hcur⟩ := hc hclosed
  have hra : remainingAdmits s = 0 := by
    simp [remainingAdmits, curAdmitsLeft, hp, hcur]
  have hfd : futureDrains N.toNat s = 0 := by
    simp [futureDrains, curDrainsLeft, hp, hcur]
  have := min_add_drains_sum N.toNat passes
  omega

/-- When the run closes its completion channel, `total` equals the sum of
all per-pass file counts, whatever the interleaving and the per-file decode
outcomes were. -/
theorem total_at_close {N : Int} (hN : 1 ≤ N) {passes : List Nat} {s : SchedState}
    (h : Reachable N (mkInit passes) s) (hclosed : s.closed = true) :
    s.total = passes.sum := by
  have hI := inv_reachable hN h
  obtain ⟨hc, -, -, htot, -, -⟩ := hI
  obtain ⟨hp, hcur⟩ := hc hclosed
  rw [remainingTotal, hp, hcur] at htot
  simpa [curTotal] using htot

/-! ### Budget zero: the scheduler deadlocks at the first admission -/

/-- Invariant of a budget-`0` run with at least one discovered file: no
task is ever spawned, so no completion signal can ever arrive, and the
admission loop never gets past its blocking `<-done`. -/
def InvZero (s : SchedState) : Prop :=
  s.routinesActive = 0 ∧ s.spawned = 0 ∧ s.running = 0 ∧ s.finished = 0 ∧
  1 ≤ remainingAdmits s ∧ s.closed = false

theorem invZero_preserved {s t : SchedState} (hI : InvZero s) (hst : Step 0 s t) :
    InvZero t := by
  obtain ⟨hra, hsp, hrun, hfin, hadm, hcl⟩ := hI
  cases hst with
  | startPass f rest hcl2 hnone hp hf =>
    refine ⟨rfl, hsp, hrun, hfin, ?_, hcl⟩
    simp only [remainingAdmits, curAdmitsLeft, hp, hnone, List.sum_cons] at hadm ⊢
    omega
  | skipPass rest hcl2 hnone hp =>
    refine ⟨hra, hsp, hrun, hfin, ?_, hcl⟩
    simp only [remainingAdmits, curAdmitsLeft, hp, hnone, List.sum_cons] at hadm ⊢
    omega
  | admitNoDrain a f hcl2 hcura haf hne => exact absurd hra hne
  | admitDrain a f hcl2 hcura haf heq hfin2 => omega
  | endPass f hcl2 hcura =>
    refine ⟨hra, hsp, hrun, hfin, ?_, hcl⟩
    simp only [remainingAdmits, curAdmitsLeft, hcura] at hadm ⊢
    omega
  | closeChan hcl2 hnone hp =>
    rw [remainingAdmits, hp, hnone] at hadm
    simp [curAdmitsLeft] at hadm
  | taskFinish ok hrun2 => omega
  | lateSignal hcl2 hfin2 => rw [hcl2] at hcl; cases hcl

/-- With budget `0` and at least one discovered file, every reachable state
is still open (the run never reaches `close(done)`/return) and no decode
task has ever been spawned. -/
theorem budget_zero_stuck {passes : List Nat} {s : SchedState}
    (hfiles : 1 ≤ passes.sum) (h : Reachable 0 (mkInit passes) s) :
    s.closed = false ∧ s.spawned = 0 := by
  have hI : InvZero s := by
    induction h with
    | refl =>
      refine ⟨rfl, rfl, rfl, rfl, ?_, rfl⟩
      simpa [mkInit, remainingAdmits, curAdmitsLeft] using hfiles
    | tail _ hstep ih => exact invZero_preserved ih hstep
  exact ⟨hI.2.2.2.2.2, hI.2.1⟩

/-! ### Functional facts about `doProcessCore` and `processCli` -/

theorem extFold_fst (files : String → List String) (dir : String)
    (rawFileExts : List String) (acc : Nat × List String) :
    (rawFileExts.foldl (fun acc rawType =>
        let fs := files (globPattern dir rawType)
        let fileCnt := fs.length
        if 0 < fileCnt then (acc.1 + fileCnt, acc.2 ++ fs) else acc) acc).1
      = acc.1 + (rawFileExts.map (fun t => (files (globPattern dir t)).length)).sum := by
  induction rawFileExts generalizing acc with
  | nil => simp
  | cons t rest ih =>
    simp only [List.foldl_cons, List.map_cons, List.sum_cons]
    rw [ih]
    by_cases h : 0 < (files (globPattern dir t)).length
    · simp [h]
      omega
    · simp only [if_neg h]
      omega

/-- The `total` computed by the pure part of `doProcess` is the sum of the
discovered-file counts over all (directory × extension) combinations. -/
theorem doProcessCore_fst (files : String → List String)
    (srcDirs rawFileExts : List String) :
    (doProcessCore files srcDirs rawFileExts).1
      = (discoveredCounts files srcDirs rawFileExts).sum := by
  rw [doProcessCore, discoveredCounts]
  suffices h : ∀ acc : Nat × List String,
      (srcDirs.foldl (fun acc dir =>
        rawFileExts.foldl (fun acc rawType =>
          let fs := files (globPattern dir rawType)
          let fileCnt := fs.length
          if 0 < fileCnt then (acc.1 + fileCnt, acc.2 ++ fs) else acc) acc) acc).1
        = acc.1 + ((srcDirs.flatMap (fun dir =>
            rawFileExts.map (fun t => (files (globPattern dir t)).length))).sum) by
    simpa using h (0, [])
  induction srcDirs with
  | nil => simp
  | cons d rest ih =>
    intro acc
    simp only [List.foldl_cons, List.flatMap_cons, List.sum_append]
    rw [ih, extFold_fst]
    omega

/-- Every failure branch of `processCli` exits with code 1. -/
theorem processCli_error_code {args : CliArgs} {dirValid : String → Bool}
    {convertInPath : Bool} {c : Nat}
    (h : processCli args dirValid convertInPath = .error c) : c = 1 := by
  rw [processCli] at h
  repeat' split at h
  all_goals first
    | (injection h with h2; omega)
    | cases h

/-- What a successful `processCli` run guarantees about its inputs: all
required flags present, `convert` in the PATH when rotation is requested,
every (trimmed, uppercased) extension supported, and every normalised
directory valid. -/
theorem processCli_ok_inv {args : CliArgs} {dirValid : String → Bool}
    {convertInPath : Bool} {cfg : Config}
    (h : processCli args dirValid convertInPath = .ok cfg) :
    (goTrimSpace args.raws ≠ "" ∧ goTrimSpace args.srcDirsArg ≠ "" ∧
      goTrimSpace args.destDirArg ≠ "") ∧
    (args.rotate = true → convertInPath = true) ∧
    (∀ e ∈ parsedRawExts (goTrimSpace args.raws), isRawFileExtValid e = true) ∧
    (∀ d ∈ normalizedSrcDirs (goTrimSpace args.srcDirsArg), dirValid d = true) ∧
    dirValid (goTrimSpace args.destDirArg) = true := by
  rw [processCli] at h
  by_cases h1 : (goTrimSpace args.raws = "" ∨ goTrimSpace args.srcDirsArg = "" ∨
      goTrimSpace args.destDirArg = "")
  · rw [if_pos h1] at h; cases h
  rw [if_neg h1] at h
  by_cases h2 : (args.rotate = true ∧ ¬ (convertInPath = true))
  · rw [if_pos h2] at h; cases h
  rw [if_neg h2] at h
  by_cases h3 : ((parsedRawExts (goTrimSpace args.raws)).any
      (fun ext => ¬ isRawFileExtValid ext) = true)
  · rw [if_pos h3] at h; cases h
  rw [if_neg h3] at h
  by_cases h4 : ((normalizedSrcDirs (goTrimSpace args.srcDirsArg)).any
      (fun d => ¬ dirValid d) = true)
  · rw [if_pos h4] at h; cases h
  rw [if_neg h4] at h
  by_cases h5 : (¬ dirValid (goTrimSpace args.destDirArg) = true)
  · rw [if_pos h5] at h; cases h
  push_neg at h1
  refine ⟨⟨h1.1, h1.2.1, h1.2.2⟩, ?_, ?_, ?_, ?_⟩
  · intro hrot
    by_contra hcp
    exact h2 ⟨hrot, by simpa using hcp⟩
  · intro e he
    by_contra hbad
    exact h3 (List.any_eq_true.mpr ⟨e, he, by simpa using hbad⟩)
  · intro d hd
    by_contra hbad
    exact h4 (List.any_eq_true.mpr ⟨d, hd, by simpa using hbad⟩)
  · simpa using h5

/-! ### Concrete runs of the scheduler

`twoPassBurst`: budget `N = 2`, two passes of two files each, no task
finishing during the run — after the second pass has admitted its two
files, four decode tasks run simultaneously.

`onePassClosed`: budget `N = 2`, one pass of two files, no task finishing —
at `close(done)` both admitted tasks are still running.

`tinyRunClosed`: budget `1`, one pass of one file — the minimal completed
run (also a completed run for budget `-1`, whose drain branch never fires).
-/

def twoPassBurst : SchedState :=
  { passes := [], cur := some (2, 2), routinesActive := 2, spawned := 4, running := 4,
    finished := 0, received := 0, total := 2, closed := false, panicked := false }

theorem reach_twoPassBurst : Reachable 2 (mkInit [2, 2]) twoPassBurst := by
  have h1 : Step 2 (mkInit [2, 2])
      { passes := [2], cur := some (0, 2), routinesActive := 0, spawned := 0,
        running := 0, finished := 0, received := 0, total := 0, closed := false,
        panicked := false } := by
    apply Step.startPass <;> decide
  have h2 : Step 2
      { passes := [2], cur := some (0, 2), routinesActive := 0, spawned := 0,
        running := 0, finished := 0, received := 0, total := 0, closed := false,
        panicked := false }
      { passes := [2], cur := some (1, 2), routinesActive := 1, spawned := 1,
        running := 1, finished := 0, received := 0, total := 0, closed := false,
        panicked := false } := by
    apply Step.admitNoDrain <;> decide
  have h3 : Step 2
      { passes := [2], cur := some (1, 2), routinesActive := 1, spawned := 1,
        running := 1, finished := 0, received := 0, total := 0, closed := false,
        panicked := false }
      { passes := [2], cur := some (2, 2), routinesActive := 2, spawned := 2,
        running := 2, finished := 0, received := 0, total := 0, closed := false,
        panicked := false } := by
    apply Step.admitNoDrain <;> decide
  have h4 : Step 2
      { passes := [2], cur := some (2, 2), routinesActive := 2, spawned := 2,
        running := 2, finished := 0, received := 0, total := 0, closed := false,
        panicked := false }
      { passes := [2], cur := none, routinesActive := 2, spawned := 2,
        running := 2, finished := 0, received := 0, total := 2, closed := false,
        panicked := false } := by
    exact Step.endPass _ 2 (by decide) (by decide)
  have h5 : Step 2
      { passes := [2], cur := none, routinesActive := 2, spawned := 2,
        running := 2, finished := 0, received := 0, total := 2, closed := false,
        panicked := false }
      { passes := [], cur := some (0, 2), routinesActive := 0, spawned := 2,
        running := 2, finished := 0, received := 0, total := 2, closed := false,
        panicked := false } := by
    apply Step.startPass <;> decide
  have h6 : Step 2
      { passes := [], cur := some (0, 2), routinesActive := 0, spawned := 2,
        running := 2, finished := 0, received := 0, total := 2, closed := false,
        panicked := false }
      { passes := [], cur := some (1, 2), routinesActive := 1, spawned := 3,
        running := 3, finished := 0, received := 0, total := 2, closed := false,
        panicked := false } := by
    apply Step.admitNoDrain <;> decide
  have h7 : Step 2
      { passes := [], cur := some (1, 2), routinesActive := 1, spawned := 3,
        running := 3, finished := 0, received := 0, total := 2, closed := false,
        panicked := false } twoPassBurst := by
    apply Step.admitNoDrain <;> decide
  exact .tail (.tail (.tail (.tail (.tail (.tail (.single h1) h2) h3) h4) h5) h6) h7

def onePassClosed : SchedState :=
  { passes := [], cur := none, routinesActive := 2, spawned := 2, running := 2,
    finished := 0, received := 0, total := 2, closed := true, panicked := false }

theorem reach_onePassClosed : Reachable 2 (mkInit [2]) onePassClosed := by
  have h1 : Step 2 (mkInit [2])
      { passes := [], cur := some (0, 2), routinesActive := 0, spawned := 0,
        running := 0, finished := 0, received := 0, total := 0, closed := false,
        panicked := false } := by
    apply Step.startPass <;> decide
  have h2 : Step 2
      { passes := [], cur := some (0, 2), routinesActive := 0, spawned := 0,
        running := 0, finished := 0, received := 0, total := 0, closed := false,
        panicked := false }
      { passes := [], cur := some (1, 2), routinesActive := 1, spawned := 1,
        running := 1, finished := 0, received := 0, total := 0, closed := false,
        panicked := false } := by
    apply Step.admitNoDrain <;> decide
  have h3 : Step 2
      { passes := [], cur := some (1, 2), routinesActive := 1, spawned := 1,
        running := 1, finished := 0, received := 0, total := 0, closed := false,
        panicked := false }
      { passes := [], cur := some (2, 2), routinesActive := 2, spawned := 2,
        running := 2, finished := 0, received := 0, total := 0, closed := false,
        panicked := false } := by
    apply Step.admitNoDrain <;> decide
  have h4 : Step 2
      { passes := [], cur := some (2, 2), routinesActive := 2, spawned := 2,
        running := 2, finished := 0, received := 0, total := 0, closed := false,
        panicked := false }
      { passes := [], cur := none, routinesActive := 2, spawned := 2,
        running := 2, finished := 0, received := 0, total := 2, closed := false,
        panicked := false } := by
    exact Step.endPass _ 2 (by decide) (by decide)
  have h5 : Step 2
      { passes := [], cur := none, routinesActive := 2, spawned := 2,
        running := 2, finished := 0, received := 0, total := 2, closed := false,
        panicked := false } onePassClosed := by
    apply Step.closeChan <;> decide
  exact .tail (.tail (.tail (.tail (.single h1) h2) h3) h4) h5

def tinyRunClosed : SchedState :=
  { passes := [], cur := none, routinesActive := 1, spawned := 1, running := 1,
    finished := 0, received := 0, total := 1, closed := true, panicked := false }

theorem reach_tinyRunClosed (N : Int) (hN : (0 : Int) ≠ N) :
    Reachable N (mkInit [1]) tinyRunClosed := by
  have h1 : Step N (mkInit [1])
      { passes := [], cur := some (0, 1), routinesActive := 0, spawned := 0,
        running := 0, finished := 0, received := 0, total := 0, closed := false,
        panicked := false } := by
    apply Step.startPass <;> decide
  have h2 : Step N
      { passes := [], cur := some (0, 1), routinesActive := 0, spawned := 0,
        running := 0, finished := 0, received := 0, total := 0, closed := false,
        panicked := false }
      { passes := [], cur := some (1, 1), routinesActive := 1, spawned := 1,
        running := 1, finished := 0, received := 0, total := 0, closed := false,
        panicked := false } := by
    apply Step.admitNoDrain
    · rfl
    · rfl
    · decide
    · exact hN
  have h3 : Step N
      { passes := [], cur := some (1, 1), routinesActive := 1, spawned := 1,
        running := 1, finished := 0, received := 0, total := 0, closed := false,
        panicked := false }
      { passes := [], cur := none, routinesActive := 1, spawned := 1,
        running := 1, finished := 0, received := 0, total := 1, closed := false,
        panicked := false } := by
    exact Step.endPass _ 1 (by decide) (by decide)
  have h4 : Step N
      { passes := [], cur := none, routinesActive := 1, spawned := 1,
        running := 1, finished := 0, received := 0, total := 1, closed := false,
        panicked := false } tinyRunClosed := by
    apply Step.closeChan <;> decide
  exact .tail (.tail (.tail (.single h1) h2) h3) h4

/-! ### The claims -/

/-- C1 (counterexample): the claim says that for budget `N ≥ 1` at no point
during the run are more than `N` decode tasks active simultaneously.  False:
with `N = 2` and two passes of two files each, the scheduler enters the
second pass without waiting for the first pass's tasks (`routinesActive` is
pass-local), and a reachable state has 4 decode tasks running at once. -/
theorem claim_c1_counterexample :
    Reachable 2 (mkInit [2, 2]) twoPassBurst ∧ 2 < twoPassBurst.running :=
  ⟨reach_twoPassBurst, by decide⟩

/-- C1 (amended): within the admission loop the claimed mechanism does hold —
whenever `routinesActive = numOfRoutines` the scheduler blocks until one
CompletionSignal is received and decrements before spawning — and the
invariant `routinesActive ≤ N` holds in every reachable state of a run with
budget `N ≥ 1`; the global bound on simultaneously active decode tasks,
however, holds only per pass, not across passes. -/
theorem claim_c1_amended (N : Int) (passes : List Nat) (s : SchedState)
    (hN : 1 ≤ N) (h : Reachable N (mkInit passes) s) :
    s.routinesActive ≤ N :=
  routinesActive_le hN h

/-- C1 (witness): the amended invariant instantiated at budget 1 with the
initial state of a three-file pass. -/
theorem claim_c1_amended_witness :
    (1 : Int) ≤ 1 ∧ (mkInit [3]).routinesActive ≤ 1 :=
  ⟨by decide, claim_c1_amended 1 [3] (mkInit [3]) (by decide) Relation.ReflTransGen.refl⟩

/-- C2 (counterexample): the claim bounds the still-executing decode tasks
of the final batch at `close(done)` by `ConcurrencyBudget − 1`.  False: with
`N = 2` and a single pass of 2 files, a reachable closed state still has
both (`= N > N − 1`) admitted tasks running. -/
theorem claim_c2_counterexample :
    Reachable 2 (mkInit [2]) onePassClosed ∧ onePassClosed.closed = true ∧
      2 - 1 < onePassClosed.running :=
  ⟨reach_onePassClosed, rfl, by decide⟩

/-- C2 (amended): `doProcess` does close the completion channel and return
the total without waiting for still-active tasks, and in every reachable
closed state of a run with budget `N ≥ 1` the tasks whose CompletionSignal
was never received — all of which may still be executing and will attempt to
deliver into the closed channel — number exactly `Σ min(fileCnt_p, N)` over
the passes (up to `N` from a single final batch, not `N − 1`). -/
theorem claim_c2_amended (N : Int) (passes : List Nat) (s : SchedState)
    (hN : 1 ≤ N) (h : Reachable N (mkInit passes) s) (hclosed : s.closed = true) :
    s.running + s.finished = (passes.map (fun f => min f N.toNat)).sum :=
  outstanding_at_close hN h hclosed

/-- C2 (witness): the outstanding-task count instantiated at the concrete
closed run with budget 2 and one pass of two files. -/
theorem claim_c2_amended_witness :
    onePassClosed.running + onePassClosed.finished
      = (([2] : List Nat).map (fun f => min f (2 : Int).toNat)).sum :=
  claim_c2_amended 2 [2] onePassClosed (by decide) reach_onePassClosed rfl

/-- Number of completion signals sent by a task body. -/
def countSignals : List TaskAction → Nat
  | [] => 0
  | .signalCompletion :: rest => countSignals rest + 1
  | _ :: rest => countSignals rest

/-- C3: every admitted decode task sends exactly one CompletionSignal, as
its final action, on the decode-success path and on the decode-error path
alike; no path sends zero or more than one. -/
theorem claim_c3 (rotate : Bool) (outcome : DecodeOutcome) :
    countSignals (processFilesConcurrent rotate outcome) = 1 ∧
    ∃ pre, processFilesConcurrent rotate outcome = pre ++ [TaskAction.signalCompletion] ∧
      countSignals pre = 0 := by
  cases outcome with
  | failure msg => exact ⟨rfl, [.logError msg], rfl, rfl⟩
  | success r =>
    by_cases h : rotate = true ∧ r.jpegOrientation ≠ 0
    · refine ⟨?_, [.spawnRotation r.jpegPath r.jpegOrientation], ?_, rfl⟩ <;>
        simp [processFilesConcurrent, h, countSignals]
    · refine ⟨?_, [], ?_, rfl⟩ <;>
        simp [processFilesConcurrent, h, countSignals]

/-- C4: in every completed run with budget `N ≥ 1`, the total returned by
`doProcess` equals the number of discovered files summed over every
(directory × extension) combination — whatever the interleaving of task
completions and whatever each decode's success flag was (`Step.taskFinish`
carries the flag and the counters never depend on it); the pure core of
`doProcess` computes the same sum. -/
theorem claim_c4 :
    (∀ (N : Int) (g : String → Except GlobErr (List String))
        (srcDirs rawFileExts : List String) (s : SchedState), 1 ≤ N →
        Reachable N (mkInit (discoveredCounts (filesOf g) srcDirs rawFileExts)) s →
        s.closed = true →
        s.total = (discoveredCounts (filesOf g) srcDirs rawFileExts).sum) ∧
    (∀ (g : String → Except GlobErr (List String)) (srcDirs rawFileExts : List String),
        (doProcessCore (filesOf g) srcDirs rawFileExts).1
          = (discoveredCounts (filesOf g) srcDirs rawFileExts).sum) := by
  constructor
  · intro N g srcDirs rawFileExts s hN h hclosed
    exact total_at_close hN h hclosed
  · intro g srcDirs rawFileExts
    exact doProcessCore_fst (filesOf g) srcDirs rawFileExts

/-- C4 (witness): the total of the minimal completed run equals the single
discovered-file count. -/
theorem claim_c4_witness :
    tinyRunClosed.total
      = (discoveredCounts (filesOf (fun _ => Except.ok ["a"])) ["/d/"] ["NEF"]).sum := by
  have hd : discoveredCounts (filesOf (fun _ => Except.ok ["a"])) ["/d/"] ["NEF"] = [1] := by
    decide
  exact claim_c4.1 2 (fun _ => Except.ok ["a"]) ["/d/"] ["NEF"] tinyRunClosed (by decide)
    (by rw [hd]; exact reach_tinyRunClosed 2 (by decide)) rfl

/-- C5 (counterexample): the claim says a failure to launch the rotation
subprocess is logged and never aborts the run.  False: the rotation
goroutine calls `log.Fatal(err)` when `cmd.Start()` fails, which terminates
the whole process with exit code 1. -/
theorem claim_c5_counterexample :
    (rotationGoroutine "out.jpg" 1 (.launchFailure "exec failed")).outcome
      = RotOutcome.processAborted 1 ∧
    (rotationGoroutine "out.jpg" 1 (.launchFailure "exec failed")).outcome
      ≠ RotOutcome.loggedAndContinued :=
  ⟨rfl, by decide⟩

/-- C5 (amended): a nonzero exit of the rotation subprocess (`cmd.Wait`
error) is logged and not propagated — never escalated, never surfaced as a
file failure — but a failure to launch it (`cmd.Start` error) triggers
`log.Fatal`, aborting the entire process with exit code 1. -/
theorem claim_c5_amended (fileName : String) (radiansCw : ℚ) (msg : String) :
    (rotationGoroutine fileName radiansCw (.nonzeroExit msg)).outcome
      = RotOutcome.loggedAndContinued ∧
    (rotationGoroutine fileName radiansCw (.launchFailure msg)).outcome
      = RotOutcome.processAborted 1 ∧
    RotOutcome.processAborted 1 ≠ RotOutcome.loggedAndContinued :=
  ⟨rfl, rfl, by decide⟩

/-- Splitting a two-decimal tail off a string append. -/
theorem append_dot_two (x : String) (a b : Char) :
    x ++ "." ++ String.mk [a, b] = x ++ String.mk ['.', a, b] := by
  apply String.ext
  show (x.data ++ ['.']) ++ [a, b] = x.data ++ ['.', a, b]
  simp

/-- C6: a rotation unit is spawned from the decode task exactly when the
rotate flag is set and the extraction's orientation is nonzero (never on a
failed decode, never when disabled or the orientation is zero), and it
invokes `convert -rotate D P P` where `D` is the orientation times
`180 / math.Pi` formatted with exactly two decimal places and `P` is the
produced output path used as both input and output. -/
theorem claim_c6 (rotate : Bool) (r : ExtractionResult) (fileName : String)
    (o : ℚ) (ev : RotationEvent) (msg : String) :
    (TaskAction.spawnRotation fileName o ∈ processFilesConcurrent rotate (.success r)
      ↔ rotate = true ∧ r.jpegOrientation ≠ 0 ∧ fileName = r.jpegPath ∧
        o = r.jpegOrientation) ∧
    TaskAction.spawnRotation fileName o ∉ processFilesConcurrent rotate (.failure msg) ∧
    (rotationGoroutine fileName o ev).cmd
      = [ImageMagicConvertBin, "-rotate", formatFloat2 (degreesOf o),
         fileName, fileName] ∧
    (∃ intPart d1 d2, formatFloat2 (degreesOf o)
      = intPart ++ String.mk ['.', d1, d2]) := by
  refine ⟨?_, ?_, rfl, ?_⟩
  · by_cases h : rotate = true ∧ r.jpegOrientation ≠ 0
    · simp only [processFilesConcurrent, if_pos h, List.mem_append,
        List.mem_singleton, List.mem_cons, List.not_mem_nil, or_false]
      constructor
      · rintro (heq | heq)
        · injection heq with h1 h2
          exact ⟨h.1, h.2, h1, h2⟩
        · cases heq
      · rintro ⟨-, -, h1, h2⟩
        exact Or.inl (by rw [h1, h2])
    · simp only [processFilesConcurrent, if_neg h, List.nil_append,
        List.mem_singleton]
      constructor
      · intro heq
        cases heq
      · rintro ⟨h1, h2, -, -⟩
        exact absurd ⟨h1, h2⟩ h
  · simp [processFilesConcurrent]
  · exact ⟨(if degreesOf o < 0 then "-" else "") ++
      toString ((roundHalfEven (|degreesOf o| * 100)).toNat / 100),
      Nat.digitChar ((roundHalfEven (|degreesOf o| * 100)).toNat % 100 / 10),
      Nat.digitChar ((roundHalfEven (|degreesOf o| * 100)).toNat % 10),
      append_dot_two _ _ _⟩

/-- C7: every invocation with a missing required flag, an unsupported RAW
extension, an invalid source or destination directory, or rotation
requested while `convert` is absent from the PATH, exits with code 1 during
CLI validation, before any discovery or scheduling (zero tasks
scheduled). -/
theorem claim_c7 (args : CliArgs) (dirValid : String → Bool) (convertInPath : Bool)
    (getFilesForExt : String → Except GlobErr (List String))
    (hbad :
      (goTrimSpace args.raws = "" ∨ goTrimSpace args.srcDirsArg = "" ∨
        goTrimSpace args.destDirArg = "") ∨
      (args.rotate = true ∧ convertInPath = false) ∨
      (∃ e ∈ parsedRawExts (goTrimSpace args.raws), isRawFileExtValid e = false) ∨
      (∃ d ∈ normalizedSrcDirs (goTrimSpace args.srcDirsArg), dirValid d = false) ∨
      dirValid (goTrimSpace args.destDirArg) = false) :
    runMain args dirValid convertInPath getFilesForExt = .exited 1 0 := by
  rcases hpc : processCli args dirValid convertInPath with c | cfg
  · have hc1 := processCli_error_code hpc
    subst hc1
    simp only [runMain, hpc]
  · exfalso
    obtain ⟨⟨hA1, hA2, hA3⟩, hB, hC, hD, hE⟩ := processCli_ok_inv hpc
    rcases hbad with (h | h | h) | h | h | h | h
    · exact hA1 h
    · exact hA2 h
    · exact hA3 h
    · rw [hB h.1] at h
      cases h.2
    · obtain ⟨e, he, hv⟩ := h
      rw [hC e he] at hv
      cases hv
    · obtain ⟨d, hd, hv⟩ := h
      rw [hD d hd] at hv
      cases hv
    · rw [hE] at h
      cases h

/-- Flag values of Scenario C: an unsupported `--raws` extension. -/
def xyzArgs : CliArgs :=
  { raws := "XYZ", srcDirsArg := "/src", destDirArg := "/dest", numRoutines := 2,
    quality := 80, rotate := false }

/-- C7 (witness): Scenario C — an unsupported extension `XYZ` exits with
code 1 and zero scheduled tasks. -/
theorem claim_c7_witness :
    runMain xyzArgs (fun _ => true) true (fun _ => .ok []) = .exited 1 0 :=
  claim_c7 xyzArgs (fun _ => true) true (fun _ => .ok [])
    (Or.inr (Or.inr (Or.inl ⟨"XYZ", by decide, by decide⟩)))

/-- CLI flag values for a run that only varies the `--num-routines`
budget. -/
def budgetArgs (n : Int) : CliArgs :=
  { raws := "NEF", srcDirsArg := "/src", destDirArg := "/dest", numRoutines := n,
    quality := 80, rotate := false }

/-- The configuration `processCli` installs for `budgetArgs n`. -/
def budgetConfig (n : Int) : Config :=
  { rawFileExts := ["NEF"], srcDirs := ["/src/"], destDir := "/dest/",
    numOfRoutines := n, quality := 80, rotate := false }

/-- C8 (counterexample): the claim asserts that any non-positive budget is
accepted and then, with at least one discovered file, the scheduler blocks
forever.  The acceptance holds, but for a negative budget the run
terminates: with `--num-routines -1` the drain condition
`routinesActive == numOfRoutines` never fires, every file is admitted
immediately, and a closed (returned) state is reached. -/
theorem claim_c8_counterexample :
    processCli (budgetArgs (-1)) (fun _ => true) true = .ok (budgetConfig (-1)) ∧
    Reachable (-1) (mkInit [1]) tinyRunClosed ∧ tinyRunClosed.closed = true :=
  ⟨rfl, reach_tinyRunClosed (-1) (by decide), rfl⟩

/-- C8 (amended): CLI validation never enforces positivity of the
concurrency budget — every integer `--num-routines` value, `0` and negative
values included, passes validation unchanged; and for a budget of exactly
`0` with at least one discovered file the first admission's drain blocks
before any task has been spawned, so no completion signal can ever arrive
and the run never reaches `close(done)`/return.  (For negative budgets the
drain never triggers and the run terminates.) -/
theorem claim_c8_amended :
    (∀ n : Int, processCli (budgetArgs n) (fun _ => true) true = .ok (budgetConfig n)) ∧
    (∀ (passes : List Nat) (s : SchedState), 1 ≤ passes.sum →
      Reachable 0 (mkInit passes) s → s.closed = false ∧ s.spawned = 0) := by
  constructor
  · intro n
    rfl
  · intro passes s hfiles h
    exact budget_zero_stuck hfiles h

/-- C8 (witness): budget 0 passes validation, and the initial state of a
one-file run is open with nothing spawned. -/
theorem claim_c8_amended_witness :
    processCli (budgetArgs 0) (fun _ => true) true = .ok (budgetConfig 0) ∧
    1 ≤ ([1] : List Nat).sum ∧
    (mkInit [1]).closed = false ∧ (mkInit [1]).spawned = 0 :=
  ⟨claim_c8_amended.1 0, by decide,
   (claim_c8_amended.2 [1] (mkInit [1]) (by decide) Relation.ReflTransGen.refl).1,
   (claim_c8_amended.2 [1] (mkInit [1]) (by decide) Relation.ReflTransGen.refl).2⟩

/-- C9: `doProcess` discards the error returned by file discovery
(`files, _ := getFilesForExt(...)`): a (directory × extension) pass whose
glob fails behaves exactly like a pass that discovered zero files — it
yields the empty file list, contributes 0 to the total, schedules nothing,
and the run completes normally. -/
theorem claim_c9 (g : String → Except GlobErr (List String)) (p : String)
    (e : GlobErr) (srcDirs rawFileExts : List String) (hg : g p = .error e) :
    filesOf g p = [] ∧
    doProcessCore (filesOf g) srcDirs rawFileExts
      = doProcessCore (filesOf (fun q => if q = p then .ok [] else g q))
          srcDirs rawFileExts ∧
    discoveredCounts (filesOf g) srcDirs rawFileExts
      = discoveredCounts (filesOf (fun q => if q = p then .ok [] else g q))
          srcDirs rawFileExts := by
  have hfe : filesOf (fun q => if q = p then Except.ok [] else g q) = filesOf g := by
    funext q
    by_cases hq : q = p
    · subst hq
      simp [filesOf, hg]
    · simp [filesOf, hq]
  exact ⟨by simp [filesOf, hg], by rw [hfe], by rw [hfe]⟩

/-- C9 (witness): a glob oracle that always fails with `ErrBadPattern`
behaves like one that discovers nothing. -/
theorem claim_c9_witness :
    filesOf (fun _ => Except.error GlobErr.badPattern) "/[d/*.NEF" = [] ∧
    doProcessCore (filesOf (fun _ => Except.error GlobErr.badPattern)) ["/[d/"] ["NEF"]
      = doProcessCore (filesOf (fun q =>
          if q = "/[d/*.NEF" then Except.ok [] else Except.error GlobErr.badPattern))
          ["/[d/"] ["NEF"] ∧
    discoveredCounts (filesOf (fun _ => Except.error GlobErr.badPattern)) ["/[d/"] ["NEF"]
      = discoveredCounts (filesOf (fun q =>
          if q = "/[d/*.NEF" then Except.ok [] else Except.error GlobErr.badPattern))
          ["/[d/"] ["NEF"] :=
  claim_c9 (fun _ => Except.error GlobErr.badPattern) "/[d/*.NEF" GlobErr.badPattern
    ["/[d/"] ["NEF"] rfl

/-- C10: extensions given to `--raws` are trimmed and uppercased before
validation, so `"nef"` is accepted (normalised to `"NEF"`); the discovery
pattern is built from the uppercased extension (`dir ++ "*." ++ ext`), and
since glob matching is case-sensitive, a file whose on-disk extension
differs in case from the uppercased form (`goToUpper e = ext`, `e ≠ ext`)
never matches the pattern and is never discovered or processed. -/
theorem claim_c10 :
    (processCli { raws := "nef", srcDirsArg := "/src", destDirArg := "/dest",
                  numRoutines := 2, quality := 80, rotate := false }
        (fun _ => true) true
      = .ok { rawFileExts := ["NEF"], srcDirs := ["/src/"], destDir := "/dest/",
              numOfRoutines := 2, quality := 80, rotate := false }) ∧
    (∀ dir ext : String, globPattern dir ext = dir ++ "*." ++ ext) ∧
    (∀ ext stem e : String, goToUpper e = ext → e ≠ ext →
      matchesExtGlob ext (stem ++ "." ++ e) = false) ∧
    (∀ (fs : String → List String) (dir ext stem e : String),
      goToUpper e = ext → e ≠ ext → (stem ++ "." ++ e) ∉ globFs fs dir ext) := by
  have key : ∀ ext stem e : String, goToUpper e = ext → e ≠ ext →
      matchesExtGlob ext (stem ++ "." ++ e) = false := by
    intro ext stem e hup hne
    have hlen : e.data.length = ext.data.length := by
      rw [← hup]
      show e.data.length = (e.data.map Char.toUpper).length
      rw [List.length_map]
    rw [matchesExtGlob]
    by_contra hmem
    rw [Bool.not_eq_false, List.isSuffixOf_iff_suffix] at hmem
    have hdata : (stem ++ "." ++ e).data = stem.data ++ ('.' :: e.data) := by
      simp [String.data_append]
    have hdata2 : ("." ++ ext).data = '.' :: ext.data := rfl
    rw [hdata, hdata2] at hmem
    have hs2 : ('.' :: e.data) <:+ stem.data ++ ('.' :: e.data) :=
      List.suffix_append stem.data ('.' :: e.data)
    obtain ⟨t1, ht1⟩ := hmem
    obtain ⟨t2, ht2⟩ := hs2
    have heq : t1 ++ ('.' :: ext.data) = t2 ++ ('.' :: e.data) := by
      rw [ht1, ht2]
    have hlen2 : ('.' :: ext.data).length = ('.' :: e.data).length := by
      simp [hlen]
    have hcons := List.append_inj_right' heq hlen2
    have hde : ext.data = e.data := by
      injection hcons
    exact hne (String.ext hde.symm)
  refine ⟨rfl, fun dir ext => rfl, key, ?_⟩
  intro fs dir ext stem e hup hne hmem
  rw [globFs, List.mem_filter] at hmem
  rw [key ext stem e hup hne] at hmem
  cases hmem.2

/-- C10 (witness): the concrete instance — `"nef"` uppercases to the
accepted `"NEF"`, while the on-disk name `img.nef` never matches the
`*.NEF` discovery pattern. -/
theorem claim_c10_witness :
    goToUpper "nef" = "NEF" ∧ "nef" ≠ "NEF" ∧
    matchesExtGlob "NEF" ("img" ++ "." ++ "nef") = false ∧
    ("img" ++ "." ++ "nef") ∉ globFs (fun _ => ["img.nef"]) "/d/" "NEF" :=
  ⟨by decide, by decide,
   claim_c10.2.2.1 "NEF" "img" "nef" (by decide) (by decide),
   claim_c10.2.2.2 (fun _ => ["img.nef"]) "/d/" "NEF" "img" "nef" (by decide) (by decide)⟩

end Jpgextract
